import Mathlib

/-
Verification development for the `pyi_generator` stub synthesizer of the
`autd3_build_utils` repository.

The Python program (`src/pyi_generator.py`) is an `ast.NodeVisitor` that
walks a module's top-level statements, builds a structural model of each
class definition, expands marker-driven synthetic members, and renders the
resulting models to `.pyi` declaration text.

The shallow embedding below mirrors that program:
  * `Ann` models the subset of Python AST expression nodes the translator
    `_get_type_annotation` inspects (with an `other` constructor for every
    node shape outside the recognized grammar, and `BinOpKind.otherOp` for a
    `BinOp` whose operator is not `|`);
  * `PyVal` models the Python values that `_get_value_expr` can return
    (a constant's value, a bare identifier as a string, or the sentinel
    string "None");
  * `ClassDef` / `BodyItem` model the class-definition nodes consumed by
    `visit_ClassDef`, `TopStmt` the module-level statements;
  * `PyiState` models the visitor state (`class_defs`, `imports`,
    `should_generate`);
  * `generate_pyi` models the renderer; it returns `Option String` because
    the Python renderer raises `ValueError` (via `zip(..., strict=True)`)
    when a padded default list does not match its parameter list.

String operations that Python performs on `str` (startswith, endswith,
slicing) are modelled on the character lists underlying Lean strings, which
matches Python's per-character semantics exactly.
-/

namespace PyiGen

/-- Python values that can appear as extracted default values:
`None`, strings (also used for bare identifiers and the sentinel "None"),
integers and booleans. -/
inductive PyVal where
  | vNone
  | vStr (s : String)
  | vInt (n : Int)
  | vBool (b : Bool)
deriving DecidableEq

/-- `str(value)` / f-string formatting of a `PyVal`, as Python renders it. -/
def pyValStr : PyVal → String
  | .vNone => "None"
  | .vStr s => s
  | .vInt n => toString n
  | .vBool true => "True"
  | .vBool false => "False"

/-- Binary operators as far as `_get_type_annotation` distinguishes them:
`|` (`ast.BitOr`) is recognized, every other operator falls through to the
wildcard case. -/
inductive BinOpKind where
  | bitOr
  | otherOp
deriving DecidableEq

/-- The annotation-expression nodes inspected by `_get_type_annotation`.
`other` stands for any node shape outside the recognized grammar. -/
inductive Ann where
  | name (id : String)
  | const (v : PyVal)
  | subscript (value slice : Ann)
  | tup (elts : List Ann)
  | listE (elts : List Ann)
  | binOp (left : Ann) (op : BinOpKind) (right : Ann)
  | attribute (value : Ann) (attr : String)
  | other

mutual
/-- Core of `PyiGenerator._get_type_annotation` on a present node
(the `None` case of the Python match lives in `_get_type_ann`). -/
def getTypeAnnCore : Ann → String
  | .name id => id
  | .const v => pyValStr v
  | .subscript v s => getTypeAnnCore v ++ "[" ++ getTypeAnnCore s ++ "]"
  | .tup elts => String.intercalate ", " (getTypeAnnList elts)
  | .listE elts => "[" ++ String.intercalate ", " (getTypeAnnList elts) ++ "]"
  | .binOp l .bitOr r => getTypeAnnCore l ++ " | " ++ getTypeAnnCore r
  | .binOp _ .otherOp _ => ""
  | .attribute v a => getTypeAnnCore v ++ "." ++ a
  | .other => ""

/-- Translation of a list of nodes, element by element. -/
def getTypeAnnList : List Ann → List String
  | [] => []
  | a :: as => getTypeAnnCore a :: getTypeAnnList as
end

/-- `PyiGenerator._get_type_annotation`: an absent annotation (Python `None`)
renders as the text "None"; otherwise defer to the node grammar. -/
def _get_type_ann : Option Ann → String
  | some a => getTypeAnnCore a
  | none => "None"

/-- `PyiGenerator._get_value_expr`: a constant's value, a bare name's
identifier (as a string), and the sentinel string "None" otherwise. -/
def _get_value_expr : Ann → PyVal
  | .const v => v
  | .name id => .vStr id
  | _ => .vStr "None"

/-- Boolean prefix test on character lists (Python `str.startswith`). -/
def chPrefix : List Char → List Char → Bool
  | [], _ => true
  | _ :: _, [] => false
  | a :: as, b :: bs => a == b && chPrefix as bs

/-- Python `s.startswith(p)`. -/
def strStartsWith (s p : String) : Bool := chPrefix p.toList s.toList

/-- Python `s.endswith(p)`. -/
def strEndsWith (s p : String) : Bool := chPrefix p.toList.reverse s.toList.reverse

/-- Python `s[n:]`. -/
def strDrop (s : String) (n : Nat) : String := ⟨s.toList.drop n⟩

/-- Python `s[:-n]` (empty when `n` is at least the length). -/
def strDropRight (s : String) (n : Nat) : String := ⟨s.toList.take (s.toList.length - n)⟩

/-- Occurrence test for a character-list pattern inside a character list. -/
def chInfix (pat : List Char) : List Char → Bool
  | [] => chPrefix pat []
  | c :: t => chPrefix pat (c :: t) || chInfix pat t

/-- Python `pat in s` (substring test). -/
def strContains (s pat : String) : Bool := chInfix pat.toList s.toList

/-- A decorator node: `visit_ClassDef` only looks at `ast.Name` decorators
(via `isinstance(d, ast.Name)`); any other decorator expression is ignored. -/
inductive Deco where
  | name (id : String)
  | otherDeco
deriving DecidableEq

/-- `any(d.id == s for d in decorators if isinstance(d, ast.Name))`. -/
def hasDeco (ds : List Deco) (s : String) : Bool :=
  ds.any fun d => match d with
    | .name id => id == s
    | .otherDeco => false

/-- A formal parameter node `ast.arg`: its name and optional annotation. -/
structure Arg where
  arg : String
  anno : Option Ann

/-- A direct child of a class body, as far as `visit_ClassDef` matches it:
an annotated assignment with a plain-name target, an async function
definition, a function definition, or anything else (unmatched). -/
inductive BodyItem where
  | annAssign (target : String) (anno : Ann)
  | asyncFunctionDef (name : String) (posonlyargs : List Arg) (args : List Arg)
      (defaults : List Ann) (returns : Option Ann) (decorator_list : List Deco)
  | functionDef (name : String) (posonlyargs : List Arg) (args : List Arg)
      (defaults : List Ann) (returns : Option Ann) (decorator_list : List Deco)
  | otherItem

/-- An `ast.ClassDef` node: name, base expressions, decorators, body. -/
structure ClassDef where
  name : String
  bases : List Ann
  decorator_list : List Deco
  body : List BodyItem

/-- An entry of the visitor's `methods` list:
`(method_name, posonlyargs, args, defaults, return_type)`. -/
structure Method where
  name : String
  posonlyargs : List (String × String)
  args : List (String × String)
  defaults : List PyVal
  return_type : String
deriving DecidableEq

/-- An entry of the visitor's `async_methods` list:
`(method_name, args, defaults, return_type)`. -/
structure AsyncMethod where
  name : String
  args : List (String × String)
  defaults : List PyVal
  return_type : String
deriving DecidableEq

/-- An entry of the `staticmethods` or `classmethods` list:
`(method_name, args, return_type)`. -/
structure NoDefaultMethod where
  name : String
  args : List (String × String)
  return_type : String
deriving DecidableEq

/-- The per-class model tuple appended to `self.class_defs`. -/
structure ClassModel where
  class_name : String
  full_class_name : String
  base_classes : List String
  attributes : List (String × String)
  async_methods : List AsyncMethod
  methods : List Method
  staticmethods : List NoDefaultMethod
  classmethods : List NoDefaultMethod
  properties : List (String × String)
deriving DecidableEq

/-- The visitor's mutable state: `class_defs`, `imports`, `should_generate`. -/
structure PyiState where
  class_defs : List ClassModel
  imports : List String
  should_generate : Bool
deriving DecidableEq

/-- `PyiGenerator.__init__`. -/
def initState : PyiState := ⟨[], [], false⟩

/-- Model of `re.match(r"Generic\[(.*)\]", s)` returning the first group:
the string must start with "Generic[", and the (greedy) group runs to the
last "]" that appears before any newline; `.` does not match a newline. -/
def reMatchGeneric (s : String) : Option String :=
  let l := s.toList
  if chPrefix "Generic[".toList l then
    let region := (l.drop 8).takeWhile (fun c => c ≠ '\n')
    if region.contains ']' then
      some ⟨((region.reverse.dropWhile (fun c => c ≠ ']')).drop 1).reverse⟩
    else none
  else none

/-- `PyiGenerator.get_generic_type`: the first base-class text matching
`Generic[(.*)]`. -/
def get_generic_type : List String → Option String
  | [] => none
  | b :: rest =>
    match reMatchGeneric b with
    | some g => some g
    | none => get_generic_type rest

/-- The rendered base-class texts of a class definition. -/
def baseClassesOf (node : ClassDef) : List String :=
  node.bases.map fun b => _get_type_ann (some b)

/-- `full_class_name`: `name[G]` when some base matches `Generic[G]`,
otherwise the bare name. -/
def fullNameOf (node : ClassDef) : String :=
  match get_generic_type (baseClassesOf node) with
  | some g => node.name ++ "[" ++ g ++ "]"
  | none => node.name

/-- Extraction of a parameter list: name plus translated annotation. -/
def argPairs (args : List Arg) : List (String × String) :=
  args.map fun a => (a.arg, _get_type_ann a.anno)

/-- The six member lists accumulated by the body-partition loop of
`visit_ClassDef`. -/
structure Partition where
  attributes : List (String × String)
  async_methods : List AsyncMethod
  methods : List Method
  staticmethods : List NoDefaultMethod
  classmethods : List NoDefaultMethod
  properties : List (String × String)

/-- The empty partition the loop starts from. -/
def emptyPartition : Partition := ⟨[], [], [], [], [], []⟩

/-- One iteration of the `for body_item in node.body` loop of
`visit_ClassDef`. -/
def partitionStep (p : Partition) : BodyItem → Partition
  | .annAssign attr_name anno =>
    if !(strStartsWith attr_name "_param_") && !(strStartsWith attr_name "_prop_") then
      { p with attributes := p.attributes ++ [(attr_name, getTypeAnnCore anno)] }
    else p
  | .asyncFunctionDef nm _pos args defs rets _decs =>
    { p with async_methods := p.async_methods ++
        [⟨nm, argPairs (args.drop 1), defs.map _get_value_expr, _get_type_ann rets⟩] }
  | .functionDef nm pos args defs rets decs =>
    if hasDeco decs "property" then
      { p with properties := p.properties ++ [(nm, _get_type_ann rets)] }
    else if hasDeco decs "staticmethod" then
      { p with staticmethods := p.staticmethods ++
          [⟨nm, argPairs args, _get_type_ann rets⟩] }
    else if hasDeco decs "classmethod" then
      { p with classmethods := p.classmethods ++
          [⟨nm, argPairs (args.drop 1), _get_type_ann rets⟩] }
    else
      { p with methods := p.methods ++
          [⟨nm, argPairs (pos.drop 1), argPairs (args.drop 1),
            defs.map _get_value_expr, _get_type_ann rets⟩] }
  | .otherItem => p

/-- The whole body-partition loop. -/
def bodyPartition (body : List BodyItem) : Partition :=
  body.foldl partitionStep emptyPartition

/-- Insertion into the `fields` dict: Python dicts keep insertion order and
overwrite the value of an existing key in place. -/
def dictUpdate (d : List (String × String)) (k v : String) : List (String × String) :=
  if d.any (fun p => p.1 == k) then
    d.map fun p => if p.1 == k then (k, v) else p
  else d ++ [(k, v)]

/-- The `fields` dict-building loop of the builder rule: every annotated
assignment with a plain-name target contributes an entry. -/
def collectFields : List BodyItem → List (String × String) → List (String × String)
  | [], d => d
  | .annAssign n anno :: rest, d => collectFields rest (dictUpdate d n (getTypeAnnCore anno))
  | _ :: rest, d => collectFields rest d

/-- The `fields` dict of a class body. -/
def fieldsOf (body : List BodyItem) : List (String × String) :=
  collectFields body []

/-- The synthesized property/setter name of a `_param_` field:
`field_name[7:]`, with the last three characters removed when the *field
name* ends with `_u8`. -/
def codePropName (field_name : String) : String :=
  if strEndsWith field_name "_u8" then strDropRight (strDrop field_name 7) 3
  else strDrop field_name 7

/-- The hardcoded setter-parameter type widenings of the builder rule. -/
def widenType (t : String) : String :=
  if t == "EmitIntensity" then "int | EmitIntensity"
  else if t == "Phase" then "int | Phase"
  else t

/-- One iteration of the `for field_name, field_type in fields.items()`
loop of the builder rule, appending to `(properties, methods)`. -/
def builderStep (full : String) (pm : List (String × String) × List Method)
    (f : String × String) : List (String × String) × List Method :=
  let pm :=
    if strStartsWith f.1 "_param_" then
      (pm.1 ++ [(codePropName f.1, f.2)],
       pm.2 ++ [⟨"with_" ++ codePropName f.1, [], [(codePropName f.1, widenType f.2)], [], full⟩])
    else pm
  if strStartsWith f.1 "_prop_" then (pm.1 ++ [(strDrop f.1 6, f.2)], pm.2)
  else pm

/-- The `(properties, methods)` pair after the builder rule ran (or did not
run, when the `builder` marker is absent). -/
def builderPair (node : ClassDef) : List (String × String) × List Method :=
  let p := bodyPartition node.body
  if hasDeco node.decorator_list "builder" then
    (fieldsOf node.body).foldl (builderStep (fullNameOf node)) (p.properties, p.methods)
  else (p.properties, p.methods)

/-- Methods appended by the `gain` rule. -/
def gainMethods (class_name full : String) (decs : List Deco) : List Method :=
  if hasDeco decs "gain" then
    if class_name == "Cache" then []
    else [⟨"with_cache", [], [], [], "Cache[" ++ full ++ "]"⟩]
  else []

/-- Methods appended by the `modulation` rule. -/
def modMethods (class_name full : String) (decs : List Deco) : List Method :=
  if hasDeco decs "modulation" then
    (if class_name == "Cache" then []
     else [⟨"with_cache", [], [], [], "Cache[" ++ full ++ "]"⟩])
    ++ (if class_name == "Fir" then []
        else [⟨"with_fir", [], [("iterable", "Iterable[float]")], [], "Fir[" ++ full ++ "]"⟩])
    ++ (if class_name == "RadiationPressure" then []
        else [⟨"with_radiation_pressure", [], [], [], "RadiationPressure[" ++ full ++ "]"⟩])
  else []

/-- Methods appended by the `datagram` rule. -/
def dgMethods (class_name full : String) (decs : List Deco) : List Method :=
  if hasDeco decs "datagram" then
    (if class_name == "DatagramWithTimeout" then []
     else [⟨"with_timeout", [], [("timeout", "Duration | None")], [],
            "DatagramWithTimeout[" ++ full ++ "]"⟩])
    ++ (if class_name == "DatagramWithParallelThreshold" then []
        else [⟨"with_parallel_threshold", [], [("threshold", "int | None")], [],
               "DatagramWithParallelThreshold[" ++ full ++ "]"⟩])
  else []

/-- Methods appended by the `datagram_with_segment` rule (unconditional). -/
def segMethods (full : String) (decs : List Deco) : List Method :=
  if hasDeco decs "datagram_with_segment" then
    [⟨"with_segment", [],
      [("segment", "Segment"), ("transition_mode", "TransitionModeWrap | None")], [],
      "DatagramWithSegment[" ++ full ++ "]"⟩]
  else []

/-- All methods appended by the gain/modulation/datagram/segment rules,
in the order the source appends them. -/
def markerMethods (node : ClassDef) : List Method :=
  gainMethods node.name (fullNameOf node) node.decorator_list
  ++ modMethods node.name (fullNameOf node) node.decorator_list
  ++ dgMethods node.name (fullNameOf node) node.decorator_list
  ++ segMethods (fullNameOf node) node.decorator_list

/-- The class-model tuple `visit_ClassDef` appends to `self.class_defs`. -/
def buildClassModel (node : ClassDef) : ClassModel :=
  let p := bodyPartition node.body
  ⟨node.name, fullNameOf node, baseClassesOf node,
   p.attributes, p.async_methods,
   (builderPair node).2 ++ markerMethods node,
   p.staticmethods, p.classmethods,
   (builderPair node).1⟩

/-- Imports appended to `self.imports` by the marker rules, in source
order. -/
def classImports (node : ClassDef) : List String :=
  let cn := node.name
  let decs := node.decorator_list
  (if hasDeco decs "gain" then
    (if cn == "Cache" then [] else ["from pyautd3.gain.cache import Cache"])
   else [])
  ++ (if hasDeco decs "modulation" then
        (if cn == "Cache" then [] else ["from pyautd3.modulation.cache import Cache"])
        ++ (if cn == "Fir" then []
            else ["from pyautd3.modulation.fir import Fir", "from collections.abc import Iterable"])
        ++ (if cn == "RadiationPressure" then []
            else ["from pyautd3.modulation.radiation_pressure import RadiationPressure"])
      else [])
  ++ (if hasDeco decs "datagram" then
        (if cn == "DatagramWithTimeout" then []
         else ["from pyautd3.utils import Duration",
               "from pyautd3.driver.datagram.with_timeout import DatagramWithTimeout"])
        ++ (if cn == "DatagramWithParallelThreshold" then []
            else ["from pyautd3.driver.datagram.with_parallel_threshold import DatagramWithParallelThreshold"])
      else [])
  ++ (if hasDeco decs "datagram_with_segment" then
        ["from pyautd3.native_methods.autd3capi_driver import TransitionModeWrap",
         "from pyautd3.native_methods.autd3_core import Segment",
         "from pyautd3.driver.datagram.with_segment import DatagramWithSegment"]
      else [])

/-- Whether a class carries any of the five expansion markers (each marker
branch of `visit_ClassDef` sets `self.should_generate = True`). -/
def classMatchesAny (node : ClassDef) : Bool :=
  hasDeco node.decorator_list "builder"
  || hasDeco node.decorator_list "gain"
  || hasDeco node.decorator_list "modulation"
  || hasDeco node.decorator_list "datagram"
  || hasDeco node.decorator_list "datagram_with_segment"

/-- `PyiGenerator.visit_ClassDef`: appends one class model, the rule
imports, and raises `should_generate` when a marker matched. -/
def visit_ClassDef (st : PyiState) (node : ClassDef) : PyiState :=
  ⟨st.class_defs ++ [buildClassModel node],
   st.imports ++ classImports node,
   st.should_generate || classMatchesAny node⟩

/-- One `import a (as b)` line of `visit_Import`. -/
def importLine (p : String × Option String) : String :=
  "import " ++ p.1 ++ (match p.2 with | some a => " as " ++ a | none => "")

/-- One `from m import a (as b)` line of `visit_ImportFrom`. -/
def importFromLine (m : String) (p : String × Option String) : String :=
  "from " ++ m ++ " import " ++ p.1 ++ (match p.2 with | some a => " as " ++ a | none => "")

/-- A top-level statement of the visited module. -/
inductive TopStmt where
  | imp (names : List (String × Option String))
  | impFrom (module : String) (names : List (String × Option String))
  | classDef (c : ClassDef)
  | otherStmt

/-- Dispatch of the node visitor on one top-level statement. -/
def processStmt (st : PyiState) : TopStmt → PyiState
  | .imp names => { st with imports := st.imports ++ names.map importLine }
  | .impFrom m names => { st with imports := st.imports ++ names.map (importFromLine m) }
  | .classDef c => visit_ClassDef st c
  | .otherStmt => st

/-- Visiting a whole module from the freshly initialized generator. -/
def processModule (stmts : List TopStmt) : PyiState :=
  stmts.foldl processStmt initState

/-- `zip(l1, l2, strict=True)`: `None` models the `ValueError` raised on a
length mismatch. -/
def zipStrict : List α → List β → Option (List (α × β))
  | [], [] => some []
  | a :: as, b :: bs => (zipStrict as bs).map fun l => (a, b) :: l
  | _ :: _, [] => none
  | [], _ :: _ => none

/-- `f"{name}: {ty}"`: a parameter without its default. -/
def renderBare (p : String × String) : String := p.1 ++ ": " ++ p.2

/-- One parameter of the renderer's comprehension: the ` = default` suffix
is produced exactly when the resolved default is not the sentinel string
"None" (Python `default != "None"`). -/
def renderWithDefault (pd : (String × String) × PyVal) : String :=
  renderBare pd.1 ++ (if pd.2 == PyVal.vStr "None" then "" else " = " ++ pyValStr pd.2)

/-- The default-padding plus strict-zip plus join of the renderer:
`defaults = ["None"] * (len(args) - len(defaults)) + defaults` followed by
`", ".flatten(... zip(args, defaults, strict=True))`. -/
def renderArgsWithDefaults (args : List (String × String)) (defaults : List PyVal) :
    Option String :=
  let padded := List.replicate (args.length - defaults.length) (PyVal.vStr "None") ++ defaults
  match zipStrict args padded with
  | some l => some (String.intercalate ", " (l.map renderWithDefault))
  | none => none

/-- The full argument text of a regular method: positional-only parameters
(when the joined text is non-empty) before a bare `/` separator, then the
keyword parameters with their aligned defaults. -/
def methodArgsStr (m : Method) : Option String :=
  match renderArgsWithDefaults m.args m.defaults with
  | some args_str =>
    let posonlyargs_str := String.intercalate ", " (m.posonlyargs.map renderBare)
    some (if posonlyargs_str == "" then args_str else posonlyargs_str ++ ", /, " ++ args_str)
  | none => none

/-- The rendered line of one regular method, with the `__new__` and
`FociSTM.__init__` special cases of the source. -/
def renderMethodLine (class_name full : String) (m : Method) : Option String :=
  match methodArgsStr m with
  | some args_str =>
    some (if m.name == "__new__" then
        "    def " ++ m.name ++ "(cls, " ++ args_str ++ ") -> " ++ m.return_type ++ ": ..."
      else if m.name == "__init__" && class_name == "FociSTM" then
        "    def " ++ m.name ++ "(self: " ++ class_name ++ ", " ++ args_str ++ ") -> "
          ++ m.return_type ++ ": ..."
      else
        "    def " ++ m.name ++ "(self: " ++ full ++ ", " ++ args_str ++ ") -> "
          ++ m.return_type ++ ": ...")
  | none => none

/-- The rendered line of one async method. -/
def renderAsyncLine (full : String) (m : AsyncMethod) : Option String :=
  match renderArgsWithDefaults m.args m.defaults with
  | some args_str =>
    some ("    async def " ++ m.name ++ "(self: " ++ full ++ ", " ++ args_str ++ ") -> "
      ++ m.return_type ++ ": ...")
  | none => none

/-- Failure-propagating map over a list (the renderer raises on the first
failing member). -/
def traverseOpt (f : α → Option β) : List α → Option (List β)
  | [] => some []
  | a :: as =>
    match f a with
    | some b => (traverseOpt f as).map fun bs => b :: bs
    | none => none

/-- The two lines of one static method. -/
def staticLines (m : NoDefaultMethod) : List String :=
  ["    @staticmethod",
   "    def " ++ m.name ++ "(" ++ String.intercalate ", " (m.args.map renderBare) ++ ") -> "
     ++ m.return_type ++ ": ..."]

/-- The two lines of one classmethod. -/
def classmethodLines (m : NoDefaultMethod) : List String :=
  ["    @classmethod",
   "    def " ++ m.name ++ "(cls, " ++ String.intercalate ", " (m.args.map renderBare) ++ ") -> "
     ++ m.return_type ++ ": ..."]

/-- The two lines of one property. -/
def propLines (full : String) (p : String × String) : List String :=
  ["    @property",
   "    def " ++ p.1 ++ "(self: " ++ full ++ ") -> " ++ p.2 ++ ": ..."]

/-- All lines contributed by one class model, in the source's emission
order: header, attributes, async methods, methods, static methods,
classmethods, properties, and the separating empty line. -/
def classLines (c : ClassModel) : Option (List String) :=
  match traverseOpt (renderAsyncLine c.full_class_name) c.async_methods,
        traverseOpt (renderMethodLine c.class_name c.full_class_name) c.methods with
  | some asyncLs, some methodLs =>
    some (("class " ++ c.class_name ++ "(" ++ String.intercalate ", " c.base_classes ++ "):")
      :: (c.attributes.map fun a => "    " ++ a.1 ++ ": " ++ a.2)
      ++ asyncLs ++ methodLs
      ++ (c.staticmethods.map staticLines).flatten
      ++ (c.classmethods.map classmethodLines).flatten
      ++ (c.properties.map (propLines c.full_class_name)).flatten
      ++ [""])
  | _, _ => none

/-- `PyiGenerator.generate_pyi`: all class blocks joined with newlines.
`none` models the `ValueError` raised by a strict zip on misaligned
defaults. -/
def generate_pyi (st : PyiState) : Option String :=
  match traverseOpt classLines st.class_defs with
  | some ls => some (String.intercalate "\n" ls.flatten)
  | none => none

/-! ### Characterization of the builder-rule synthesis -/

/-- Properties one field of the builder rule contributes: one per `_param_`
field (name as computed by the code), one per `_prop_` field, none
otherwise. -/
def fieldProps (f : String × String) : List (String × String) :=
  (if strStartsWith f.1 "_param_" then [(codePropName f.1, f.2)] else [])
  ++ (if strStartsWith f.1 "_prop_" then [(strDrop f.1 6, f.2)] else [])

/-- Setter methods one field of the builder rule contributes: one fluent
`with_` setter per `_param_` field, none otherwise. -/
def fieldSetters (full : String) (f : String × String) : List Method :=
  if strStartsWith f.1 "_param_" then
    [⟨"with_" ++ codePropName f.1, [], [(codePropName f.1, widenType f.2)], [], full⟩]
  else []

theorem builderStep_eq (full : String) (pm : List (String × String) × List Method)
    (f : String × String) :
    builderStep full pm f = (pm.1 ++ fieldProps f, pm.2 ++ fieldSetters full f) := by
  rcases pm with ⟨props, ms⟩
  unfold builderStep fieldProps fieldSetters
  by_cases h1 : strStartsWith f.1 "_param_" <;> by_cases h2 : strStartsWith f.1 "_prop_" <;>
    simp [h1, h2]

theorem builderFold_eq (full : String) (fields : List (String × String)) :
    ∀ props ms, fields.foldl (builderStep full) (props, ms)
      = (props ++ (fields.map fieldProps).flatten,
         ms ++ (fields.map (fieldSetters full)).flatten) := by
  induction fields with
  | nil => intro props ms; simp
  | cons f rest ih =>
    intro props ms
    rw [List.foldl_cons, builderStep_eq, ih]
    simp

/-- Under the `builder` marker the built model's properties and methods are
the partitioned source members followed by the per-field synthesized
members (and then the other marker rules' methods). -/
theorem buildClassModel_builder (node : ClassDef)
    (h : hasDeco node.decorator_list "builder" = true) :
    (buildClassModel node).properties
      = (bodyPartition node.body).properties ++ ((fieldsOf node.body).map fieldProps).flatten
    ∧ (buildClassModel node).methods
      = (bodyPartition node.body).methods
        ++ ((fieldsOf node.body).map (fieldSetters (fullNameOf node))).flatten
        ++ markerMethods node := by
  unfold buildClassModel builderPair
  rw [h]
  simp [builderFold_eq, List.append_assoc]

theorem chPrefix_param_not_prop (l : List Char)
    (h : chPrefix ['_', 'p', 'a', 'r', 'a', 'm', '_'] l = true) :
    chPrefix ['_', 'p', 'r', 'o', 'p', '_'] l = false := by
  match l with
  | [] => simp [chPrefix] at h
  | [c0] => simp [chPrefix] at h
  | [c0, c1] => simp [chPrefix] at h
  | c0 :: c1 :: c2 :: t =>
    simp only [chPrefix, Bool.and_eq_true, beq_iff_eq] at h
    obtain ⟨-, -, h2, -⟩ := h
    cases hc : chPrefix ['_', 'p', 'r', 'o', 'p', '_'] (c0 :: c1 :: c2 :: t) with
    | false => rfl
    | true =>
      exfalso
      simp only [chPrefix, Bool.and_eq_true, beq_iff_eq] at hc
      obtain ⟨-, -, hr, -⟩ := hc
      rw [← h2] at hr
      exact absurd hr (by decide)

/-- A name starting with `_param_` does not start with `_prop_`. -/
theorem param_not_prop (n : String) (h : strStartsWith n "_param_" = true) :
    strStartsWith n "_prop_" = false := by
  unfold strStartsWith at h ⊢
  exact chPrefix_param_not_prop n.toList h

theorem chPrefix_prop_not_param (l : List Char)
    (h : chPrefix ['_', 'p', 'r', 'o', 'p', '_'] l = true) :
    chPrefix ['_', 'p', 'a', 'r', 'a', 'm', '_'] l = false := by
  match l with
  | [] => simp [chPrefix] at h
  | [c0] => simp [chPrefix] at h
  | [c0, c1] => simp [chPrefix] at h
  | c0 :: c1 :: c2 :: t =>
    simp only [chPrefix, Bool.and_eq_true, beq_iff_eq] at h
    obtain ⟨-, -, h2, -⟩ := h
    cases hc : chPrefix ['_', 'p', 'a', 'r', 'a', 'm', '_'] (c0 :: c1 :: c2 :: t) with
    | false => rfl
    | true =>
      exfalso
      simp only [chPrefix, Bool.and_eq_true, beq_iff_eq] at hc
      obtain ⟨-, -, hr, -⟩ := hc
      rw [← h2] at hr
      exact absurd hr (by decide)

/-- A name starting with `_prop_` does not start with `_param_`. -/
theorem prop_not_param (n : String) (h : strStartsWith n "_prop_" = true) :
    strStartsWith n "_param_" = false := by
  unfold strStartsWith at h ⊢
  exact chPrefix_prop_not_param n.toList h

/-! ### C1 -/

/-- A builder-marked class whose sole field is `_param_u8: int`.  Reading
the field as `_param_<X>` gives `X = "u8"`, and `"u8"` has no trailing
`_u8` suffix, so the claim predicts a property named `u8` and a setter
`with_u8`. -/
def u8Cls : ClassDef :=
  ⟨"B", [], [Deco.name "builder"], [BodyItem.annAssign "_param_u8" (Ann.name "int")]⟩

/-- Claim C1 is false as stated: for the field `_param_u8` (where
`X = "u8"` carries no trailing `_u8` suffix, so the claim predicts a
property `u8` and a setter `with_u8`), the code tests the *field name* for
the `_u8` suffix and strips three characters from `X`, producing the empty
property name and the setter `with_`. -/
theorem c1_counterexample :
    (buildClassModel u8Cls).properties = [("", "int")]
    ∧ (buildClassModel u8Cls).methods = [⟨"with_", [], [("", "int")], [], "B"⟩]
    ∧ ¬ (("u8", "int") ∈ (buildClassModel u8Cls).properties)
    ∧ (∀ m ∈ (buildClassModel u8Cls).methods, m.name ≠ "with_u8") := by
  decide

/-- Claim C1 (amended): for every `builder`-marked class, the built model's
properties and methods extend the partitioned source members by exactly the
per-field synthesized members of the collected field map: each `_param_`
field contributes exactly one property and exactly one `with_` setter
method (one keyword parameter, returning the class's own full name), each
`_prop_` field exactly one property and no setter, where the synthesized
name is the field name without its 7-character prefix and — when the *field
name* ends with `_u8` — without its last three characters. -/
theorem builder_param_field_synthesis (node : ClassDef)
    (h : hasDeco node.decorator_list "builder" = true) :
    ((buildClassModel node).properties
      = (bodyPartition node.body).properties ++ ((fieldsOf node.body).map fieldProps).flatten
    ∧ (buildClassModel node).methods
      = (bodyPartition node.body).methods
        ++ ((fieldsOf node.body).map (fieldSetters (fullNameOf node))).flatten
        ++ markerMethods node)
    ∧ (∀ n t, strStartsWith n "_param_" = true →
        fieldProps (n, t) = [(codePropName n, t)]
        ∧ fieldSetters (fullNameOf node) (n, t)
            = [⟨"with_" ++ codePropName n, [], [(codePropName n, widenType t)], [],
                fullNameOf node⟩])
    ∧ (∀ n t, strStartsWith n "_prop_" = true →
        fieldProps (n, t) = [(strDrop n 6, t)]
        ∧ fieldSetters (fullNameOf node) (n, t) = []) := by
  refine ⟨buildClassModel_builder node h, ?_, ?_⟩
  · intro n t hp
    constructor
    · simp [fieldProps, hp, param_not_prop n hp]
    · simp [fieldSetters, hp]
  · intro n t hp
    constructor
    · simp [fieldProps, hp, prop_not_param n hp]
    · simp [fieldSetters, prop_not_param n hp]

/-- A builder-marked class with one `_param_`, one `_u8`-suffixed
`_param_`, and one `_prop_` field, used to instantiate C1 and C5. -/
def builderDemoCls : ClassDef :=
  ⟨"Demo", [], [Deco.name "builder"],
   [BodyItem.annAssign "_param_foo" (Ann.name "int"),
    BodyItem.annAssign "_param_intensity_u8" (Ann.name "EmitIntensity"),
    BodyItem.annAssign "_prop_bar" (Ann.name "str")]⟩

/-- Witness for the amended C1 at a concrete builder class. -/
theorem c1_witness :
    (buildClassModel builderDemoCls).properties
      = [("foo", "int"), ("intensity", "EmitIntensity"), ("bar", "str")]
    ∧ fieldProps ("_param_foo", "int") = [("foo", "int")]
    ∧ fieldSetters "Demo" ("_prop_bar", "str") = [] := by
  have h := builder_param_field_synthesis builderDemoCls (by decide)
  refine ⟨?_, ?_, ?_⟩
  · rw [h.1.1]; decide
  · exact (h.2.1 "_param_foo" "int" (by decide)).1
  · exact (h.2.2 "_prop_bar" "str" (by decide)).2

/-! ### C5 -/

/-- Claim C5: in the builder rule, a `_param_` field of declared type `t`
yields a property still typed `t` and a setter whose single parameter has
the widened type `widenType t`; the widening maps `EmitIntensity` to
`int | EmitIntensity`, `Phase` to `int | Phase`, and leaves every other
type unchanged. -/
theorem builder_widening_setter_only (node : ClassDef) (n t : String)
    (hb : hasDeco node.decorator_list "builder" = true)
    (hf : (n, t) ∈ fieldsOf node.body)
    (hp : strStartsWith n "_param_" = true) :
    (codePropName n, t) ∈ (buildClassModel node).properties
    ∧ (⟨"with_" ++ codePropName n, [], [(codePropName n, widenType t)], [],
        fullNameOf node⟩ : Method) ∈ (buildClassModel node).methods
    ∧ widenType "EmitIntensity" = "int | EmitIntensity"
    ∧ widenType "Phase" = "int | Phase"
    ∧ (∀ s, s ≠ "EmitIntensity" → s ≠ "Phase" → widenType s = s) := by
  obtain ⟨hprops, hms⟩ := buildClassModel_builder node hb
  refine ⟨?_, ?_, rfl, rfl, ?_⟩
  · rw [hprops]
    refine List.mem_append_right _ (List.mem_flatten.mpr ⟨fieldProps (n, t), ?_, ?_⟩)
    · exact List.mem_map_of_mem _ hf
    · simp [fieldProps, hp]
  · rw [hms]
    refine List.mem_append_left _ (List.mem_append_right _
      (List.mem_flatten.mpr ⟨fieldSetters (fullNameOf node) (n, t), ?_, ?_⟩))
    · exact List.mem_map_of_mem _ hf
    · simp [fieldSetters, hp]
  · intro s h1 h2
    simp [widenType, h1, h2]

/-- Witness for C5 at the concrete builder class: the `EmitIntensity` field
keeps its property type and gets a widened setter parameter. -/
theorem c5_witness :
    ("intensity", "EmitIntensity") ∈ (buildClassModel builderDemoCls).properties
    ∧ (⟨"with_intensity", [], [("intensity", "int | EmitIntensity")], [], "Demo"⟩ : Method)
        ∈ (buildClassModel builderDemoCls).methods := by
  have h := builder_widening_setter_only builderDemoCls "_param_intensity_u8" "EmitIntensity"
    (by decide) (by decide) (by decide)
  exact ⟨h.1, h.2.1⟩

/-! ### C2 -/

/-- A class definition with no marker at all. -/
def plainCls : ClassDef := ⟨"A", [], [], []⟩

/-- Claim C2 is false as stated: a module with a single markerless class
leaves the `should_generate` flag false, yet `generate_pyi` still renders
the class, producing non-empty output. -/
theorem c2_counterexample :
    (processModule [TopStmt.classDef plainCls]).should_generate = false
    ∧ generate_pyi (processModule [TopStmt.classDef plainCls]) = some "class A():\n"
    ∧ "class A():\n" ≠ "" := by
  decide

/-- The `should_generate` flag never falls back to false and only rises on
a marker match. -/
theorem shouldGenerate_foldl (stmts : List TopStmt) :
    ∀ st : PyiState, st.should_generate = false →
    (∀ c, TopStmt.classDef c ∈ stmts → classMatchesAny c = false) →
    (stmts.foldl processStmt st).should_generate = false := by
  induction stmts with
  | nil => intro st hst _; simpa using hst
  | cons s rest ih =>
    intro st hst h
    rw [List.foldl_cons]
    refine ih _ ?_ (fun c hc => h c (List.mem_cons_of_mem _ hc))
    cases s with
    | imp names => simpa [processStmt] using hst
    | impFrom m names => simpa [processStmt] using hst
    | classDef c =>
      have hm := h c (List.mem_cons_self _ _)
      simp [processStmt, visit_ClassDef, hst, hm]
    | otherStmt => simpa [processStmt] using hst

/-- Claim C2 (amended): if no class in the module carries any of the five
markers, the module-wide `should_generate` flag remains false after
visiting the whole module.  The `generate_pyi` renderer itself does not
consult the flag — it renders every built class (see `c2_counterexample`) —
so producing empty output for a marker-free module is the caller's use of
the flag, not a property of the renderer. -/
theorem no_marker_flag_stays_false (stmts : List TopStmt)
    (h : ∀ c, TopStmt.classDef c ∈ stmts → classMatchesAny c = false) :
    (processModule stmts).should_generate = false :=
  shouldGenerate_foldl stmts initState rfl h

/-- Witness for the amended C2: a module with imports and one markerless
class keeps the flag false. -/
theorem c2_witness :
    (processModule [TopStmt.imp [("os", none)], TopStmt.classDef plainCls,
      TopStmt.otherStmt]).should_generate = false := by
  apply no_marker_flag_stays_false
  intro c hc
  simp only [List.mem_cons, List.mem_singleton] at hc
  rcases hc with hc | hc | hc
  · exact absurd hc (by simp)
  · rw [TopStmt.classDef.injEq] at hc
    subst hc
    decide
  · exact absurd hc (by simp)

/-! ### C3 -/

/-- The round-trip module: `class Foo(Generic[int]):` carrying the
`builder` marker with the single field `_param_level: int`. -/
def fooCls : ClassDef :=
  ⟨"Foo", [Ann.subscript (Ann.name "Generic") (Ann.name "int")], [Deco.name "builder"],
   [BodyItem.annAssign "_param_level" (Ann.name "int")]⟩

/-- Claim C3: the round-trip module builds a class model whose full name is
`Foo[int]`, with a property `level: int` and a method `with_level` taking
one parameter `level: int` and returning `Foo[int]`; the rendered output
contains the full class name `Foo[int]` and those member declarations
(the emitted class-header line itself shows the bare name with its base
list, `class Foo(Generic[int]):`, and every member annotates the class's
full name `Foo[int]`). -/
theorem roundtrip_foo_builder :
    (processModule [TopStmt.classDef fooCls]).class_defs
      = [⟨"Foo", "Foo[int]", ["Generic[int]"], [], [],
          [⟨"with_level", [], [("level", "int")], [], "Foo[int]"⟩], [], [],
          [("level", "int")]⟩]
    ∧ generate_pyi (processModule [TopStmt.classDef fooCls])
        = some "class Foo(Generic[int]):\n    def with_level(self: Foo[int], level: int) -> Foo[int]: ...\n    @property\n    def level(self: Foo[int]) -> int: ...\n"
    ∧ strContains "class Foo(Generic[int]):\n    def with_level(self: Foo[int], level: int) -> Foo[int]: ...\n    @property\n    def level(self: Foo[int]) -> int: ...\n" "Foo[int]" = true
    ∧ strContains "class Foo(Generic[int]):\n    def with_level(self: Foo[int], level: int) -> Foo[int]: ...\n    @property\n    def level(self: Foo[int]) -> int: ...\n" "def level(self: Foo[int]) -> int: ..." = true
    ∧ strContains "class Foo(Generic[int]):\n    def with_level(self: Foo[int], level: int) -> Foo[int]: ...\n    @property\n    def level(self: Foo[int]) -> int: ...\n" "def with_level(self: Foo[int], level: int) -> Foo[int]: ..." = true := by
  refine ⟨by decide, by decide, by decide, by decide, by decide⟩

/-! ### C4 -/

/-- Claim C4: annotation translation is total — every node yields exactly
one text (the embedding is a total function, so a result always exists) —
and any node shape outside the recognized grammar (here: a `BinOp` whose
operator is not `|`, and the `other` constructor standing for every
unrecognized shape) yields the empty text, while an absent annotation
yields the text "None". -/
theorem type_translation_total :
    (∀ a : Option Ann, ∃ s : String, _get_type_ann a = s)
    ∧ (∀ l r : Ann, getTypeAnnCore (Ann.binOp l BinOpKind.otherOp r) = "")
    ∧ getTypeAnnCore Ann.other = ""
    ∧ _get_type_ann none = "None" :=
  ⟨fun a => ⟨_, rfl⟩, fun l r => by simp [getTypeAnnCore], by simp [getTypeAnnCore], rfl⟩

/-! ### C6 -/

/-- Claim C6: the built model's methods decompose into the pre-marker
methods followed by the per-rule wrapper-method segments, and under its
marker each wrapper method is appended exactly when the class's bare name
differs from that method's exclusion class — `with_cache` never to `Cache`
(for both the gain and the modulation rule), `with_fir` never to `Fir`,
`with_radiation_pressure` never to `RadiationPressure`, `with_timeout`
never to `DatagramWithTimeout`, `with_parallel_threshold` never to
`DatagramWithParallelThreshold` — each returning its wrapper type
parameterized by the class's full name. -/
theorem marker_wrapper_exclusions (node : ClassDef) :
    (buildClassModel node).methods
      = (builderPair node).2
        ++ gainMethods node.name (fullNameOf node) node.decorator_list
        ++ modMethods node.name (fullNameOf node) node.decorator_list
        ++ dgMethods node.name (fullNameOf node) node.decorator_list
        ++ segMethods (fullNameOf node) node.decorator_list
    ∧ (hasDeco node.decorator_list "gain" = true →
        gainMethods node.name (fullNameOf node) node.decorator_list
          = if node.name = "Cache" then []
            else [⟨"with_cache", [], [], [], "Cache[" ++ fullNameOf node ++ "]"⟩])
    ∧ (hasDeco node.decorator_list "modulation" = true →
        modMethods node.name (fullNameOf node) node.decorator_list
          = (if node.name = "Cache" then []
             else [⟨"with_cache", [], [], [], "Cache[" ++ fullNameOf node ++ "]"⟩])
            ++ (if node.name = "Fir" then []
                else [⟨"with_fir", [], [("iterable", "Iterable[float]")], [],
                       "Fir[" ++ fullNameOf node ++ "]"⟩])
            ++ (if node.name = "RadiationPressure" then []
                else [⟨"with_radiation_pressure", [], [], [],
                       "RadiationPressure[" ++ fullNameOf node ++ "]"⟩]))
    ∧ (hasDeco node.decorator_list "datagram" = true →
        dgMethods node.name (fullNameOf node) node.decorator_list
          = (if node.name = "DatagramWithTimeout" then []
             else [⟨"with_timeout", [], [("timeout", "Duration | None")], [],
                    "DatagramWithTimeout[" ++ fullNameOf node ++ "]"⟩])
            ++ (if node.name = "DatagramWithParallelThreshold" then []
                else [⟨"with_parallel_threshold", [], [("threshold", "int | None")], [],
                       "DatagramWithParallelThreshold[" ++ fullNameOf node ++ "]"⟩])) := by
  refine ⟨?_, ?_, ?_, ?_⟩
  · simp [buildClassModel, markerMethods, List.append_assoc]
  · intro h
    by_cases hn : node.name = "Cache" <;> simp [gainMethods, h, hn]
  · intro h
    by_cases h1 : node.name = "Cache" <;> by_cases h2 : node.name = "Fir" <;>
      by_cases h3 : node.name = "RadiationPressure" <;> simp [modMethods, h, h1, h2, h3]
  · intro h
    by_cases h1 : node.name = "DatagramWithTimeout" <;>
      by_cases h2 : node.name = "DatagramWithParallelThreshold" <;>
      simp [dgMethods, h, h1, h2]

/-- A class carrying all three wrapper markers, with a name equal to none
of the exclusion classes. -/
def gainDemoCls : ClassDef :=
  ⟨"Focus", [], [Deco.name "gain", Deco.name "modulation", Deco.name "datagram"], []⟩

/-- Witness for C6: a class named `Focus` with the gain, modulation and
datagram markers receives every wrapper method. -/
theorem c6_witness :
    gainMethods "Focus" "Focus" gainDemoCls.decorator_list
      = [⟨"with_cache", [], [], [], "Cache[Focus]"⟩]
    ∧ modMethods "Focus" "Focus" gainDemoCls.decorator_list
      = [⟨"with_cache", [], [], [], "Cache[Focus]"⟩,
         ⟨"with_fir", [], [("iterable", "Iterable[float]")], [], "Fir[Focus]"⟩,
         ⟨"with_radiation_pressure", [], [], [], "RadiationPressure[Focus]"⟩]
    ∧ dgMethods "Focus" "Focus" gainDemoCls.decorator_list
      = [⟨"with_timeout", [], [("timeout", "Duration | None")], [], "DatagramWithTimeout[Focus]"⟩,
         ⟨"with_parallel_threshold", [], [("threshold", "int | None")], [],
          "DatagramWithParallelThreshold[Focus]"⟩] := by
  have h := marker_wrapper_exclusions gainDemoCls
  refine ⟨?_, ?_, ?_⟩
  · have := h.2.1 (by decide)
    simpa using this
  · have := h.2.2.1 (by decide)
    simpa using this
  · have := h.2.2.2 (by decide)
    simpa using this

/-! ### C7 -/

theorem zipStrict_eq_zip : ∀ (l₁ : List α) (l₂ : List β), l₁.length = l₂.length →
    zipStrict l₁ l₂ = some (l₁.zip l₂)
  | [], [], _ => rfl
  | a :: as, b :: bs, h => by
    rw [List.zip_cons_cons]
    simp only [zipStrict]
    rw [zipStrict_eq_zip as bs (by simpa using h)]
    rfl
  | [], _ :: _, h => by simp at h
  | _ :: _, [], h => by simp at h

/-- Zipping parameters against sentinel padding renders them without any
default suffix. -/
theorem render_zip_replicate (l : List (String × String)) :
    ((l.zip (List.replicate l.length (PyVal.vStr "None"))).map renderWithDefault)
      = l.map renderBare := by
  induction l with
  | nil => rfl
  | cons a t ih =>
    simp only [List.length_cons, List.replicate_succ, List.zip_cons_cons, List.map_cons, ih,
      renderWithDefault]
    simp

/-- What the claim states the padding achieves: the leading parameters
(as many as the defaults are short) render bare, and the trailing
parameters render with their default exactly when it is not the
sentinel. -/
def claimRenderArgs (args : List (String × String)) (defaults : List PyVal) : String :=
  let k := args.length - defaults.length
  String.intercalate ", "
    ((args.take k).map renderBare ++ ((args.drop k).zip defaults).map renderWithDefault)

/-- Claim C7: when the default list is no longer than the parameter list,
the renderer left-pads it with the sentinel "None" so that defaults align
to the trailing parameters, and a parameter renders a ` = default` suffix
exactly when its resolved default is not the sentinel (the first
`args.length - defaults.length` parameters render bare). -/
theorem defaults_left_padding (args : List (String × String)) (defaults : List PyVal)
    (h : defaults.length ≤ args.length) :
    renderArgsWithDefaults args defaults = some (claimRenderArgs args defaults) := by
  simp only [renderArgsWithDefaults, claimRenderArgs]
  set k := args.length - defaults.length with hk
  have hlen : args.length = (List.replicate k (PyVal.vStr "None") ++ defaults).length := by
    simp [hk, Nat.sub_add_cancel h]
  rw [zipStrict_eq_zip _ _ hlen]
  simp only [Option.some.injEq]
  congr 1
  have htk : (args.take k).length = k := by
    simp [hk, Nat.min_eq_left (Nat.sub_le _ _)]
  calc (args.zip (List.replicate k (PyVal.vStr "None") ++ defaults)).map renderWithDefault
      = ((args.take k ++ args.drop k).zip
          (List.replicate (args.take k).length (PyVal.vStr "None") ++ defaults)).map
            renderWithDefault := by
        rw [List.take_append_drop, htk]
    _ = ((args.take k).zip (List.replicate (args.take k).length (PyVal.vStr "None"))).map
          renderWithDefault ++ ((args.drop k).zip defaults).map renderWithDefault := by
        rw [List.zip_append (by simp), List.map_append]
    _ = (args.take k).map renderBare ++ ((args.drop k).zip defaults).map renderWithDefault := by
        rw [render_zip_replicate]

/-- Witness for C7: three parameters with one (non-sentinel) default — only
the last parameter renders a default. -/
theorem c7_witness :
    renderArgsWithDefaults [("a", "int"), ("b", "int"), ("c", "int")] [PyVal.vInt 1]
      = some (claimRenderArgs [("a", "int"), ("b", "int"), ("c", "int")] [PyVal.vInt 1])
    ∧ claimRenderArgs [("a", "int"), ("b", "int"), ("c", "int")] [PyVal.vInt 1]
      = "a: int, b: int, c: int = 1" :=
  ⟨defaults_left_padding _ _ (by decide), by decide⟩

/-! ### C8 -/

/-- What the claim states about method lines: `__new__` binds `cls`; the
single named exception `__init__` on the class named `FociSTM` annotates
`self` with the bare class name; every other instance method annotates
`self` with the computed full name. -/
def claimRenderMethodLine (class_name full : String) (m : Method) : Option String :=
  (methodArgsStr m).map fun a =>
    if m.name = "__new__" then
      "    def " ++ m.name ++ "(cls, " ++ a ++ ") -> " ++ m.return_type ++ ": ..."
    else if m.name = "__init__" ∧ class_name = "FociSTM" then
      "    def " ++ m.name ++ "(self: " ++ class_name ++ ", " ++ a ++ ") -> "
        ++ m.return_type ++ ": ..."
    else
      "    def " ++ m.name ++ "(self: " ++ full ++ ", " ++ a ++ ") -> "
        ++ m.return_type ++ ": ..."

/-- Claim C8: the renderer's method-line production coincides with the
claim's description — `__new__` renders with first parameter `cls`,
`__init__` on the class named `FociSTM` annotates `self` with the bare
class name, and every other instance method annotates `self` with the
full class name. -/
theorem render_method_line_special_cases (class_name full : String) (m : Method) :
    renderMethodLine class_name full m = claimRenderMethodLine class_name full m := by
  unfold renderMethodLine claimRenderMethodLine
  cases methodArgsStr m with
  | none => rfl
  | some a =>
    simp only [Option.map_some']
    by_cases h1 : m.name = "__new__" <;> by_cases h2 : m.name = "__init__" <;>
      by_cases h3 : class_name = "FociSTM" <;> simp [h1, h2, h3]

/-! ### C9 -/

/-- Claim C9: the renderer is a pure function of the built class models —
two generator states holding the same (immutable) class-model list render
to identical text, so invoking the renderer twice on the same models yields
byte-identical output, and rendering cannot mutate the models (the
embedding threads them as values). -/
theorem render_deterministic (st st' : PyiState) (h : st.class_defs = st'.class_defs) :
    generate_pyi st = generate_pyi st' := by
  unfold generate_pyi
  rw [h]

/-- Witness for C9: states differing in imports and flag render the same
output, and the empty state renders the empty string both times. -/
theorem c9_witness :
    generate_pyi ⟨[], ["import os"], true⟩ = generate_pyi ⟨[], [], false⟩
    ∧ generate_pyi (⟨[], [], false⟩ : PyiState) = some "" :=
  ⟨render_deterministic _ _ rfl, rfl⟩

/-! ### C10 -/

/-- Every method model of every built class has no more defaults than kept
keyword parameters. -/
def DefaultsAligned (st : PyiState) : Prop :=
  ∀ c ∈ st.class_defs,
    (∀ m ∈ c.async_methods, m.defaults.length ≤ m.args.length)
    ∧ (∀ m ∈ c.methods, m.defaults.length ≤ m.args.length)

theorem renderArgs_isSome (args : List (String × String)) (defaults : List PyVal)
    (h : defaults.length ≤ args.length) :
    (renderArgsWithDefaults args defaults).isSome = true := by
  simp only [renderArgsWithDefaults]
  have hlen : args.length
      = (List.replicate (args.length - defaults.length) (PyVal.vStr "None") ++ defaults).length := by
    simp [Nat.sub_add_cancel h]
  rw [zipStrict_eq_zip _ _ hlen]
  rfl

theorem traverseOpt_isSome (f : α → Option β) (l : List α)
    (h : ∀ a ∈ l, (f a).isSome = true) :
    (traverseOpt f l).isSome = true := by
  induction l with
  | nil => rfl
  | cons a t ih =>
    obtain ⟨b, hb⟩ := Option.isSome_iff_exists.mp (h a (List.mem_cons_self a t))
    obtain ⟨bs, hbs⟩ :=
      Option.isSome_iff_exists.mp (ih fun x hx => h x (List.mem_cons_of_mem _ hx))
    simp [traverseOpt, hb, hbs]

theorem classLines_isSome (c : ClassModel)
    (ha : ∀ m ∈ c.async_methods, m.defaults.length ≤ m.args.length)
    (hm : ∀ m ∈ c.methods, m.defaults.length ≤ m.args.length) :
    (classLines c).isSome = true := by
  have h1 : (traverseOpt (renderAsyncLine c.full_class_name) c.async_methods).isSome = true := by
    refine traverseOpt_isSome _ _ fun m hm' => ?_
    unfold renderAsyncLine
    obtain ⟨s, hs⟩ := Option.isSome_iff_exists.mp (renderArgs_isSome _ _ (ha m hm'))
    rw [hs]
    rfl
  have h2 : (traverseOpt (renderMethodLine c.class_name c.full_class_name) c.methods).isSome
      = true := by
    refine traverseOpt_isSome _ _ fun m hm' => ?_
    unfold renderMethodLine methodArgsStr
    obtain ⟨s, hs⟩ := Option.isSome_iff_exists.mp (renderArgs_isSome _ _ (hm m hm'))
    rw [hs]
    rfl
  obtain ⟨ls1, hl1⟩ := Option.isSome_iff_exists.mp h1
  obtain ⟨ls2, hl2⟩ := Option.isSome_iff_exists.mp h2
  unfold classLines
  rw [hl1, hl2]
  rfl

/-- A markerless class whose source method carries defaults on
positional-only parameters: `def f(self, x: int = 1, y: int = 2, /): ...`.
After the builder drops the first parameter, the two defaults outnumber the
zero remaining keyword parameters. -/
def badPosOnlyCls : ClassDef :=
  ⟨"C", [], [],
   [BodyItem.functionDef "f"
      [⟨"self", none⟩, ⟨"x", some (Ann.name "int")⟩, ⟨"y", some (Ann.name "int")⟩] []
      [Ann.const (PyVal.vInt 1), Ann.const (PyVal.vInt 2)] none []]⟩

/-- Claim C10: rendering succeeds on every state whose method models keep
defaults no longer than their keyword-parameter lists, and fails (the
strict zip raises, modelled as `none`) on the built model of a source class
whose positional-only parameters carry defaults. -/
theorem render_total_iff_defaults_aligned :
    (∀ st : PyiState, DefaultsAligned st → (generate_pyi st).isSome = true)
    ∧ generate_pyi (processModule [TopStmt.classDef badPosOnlyCls]) = none := by
  constructor
  · intro st hst
    unfold generate_pyi
    have h : (traverseOpt classLines st.class_defs).isSome = true := by
      refine traverseOpt_isSome _ _ fun c hc => ?_
      exact classLines_isSome c (hst c hc).1 (hst c hc).2
    obtain ⟨ls, hls⟩ := Option.isSome_iff_exists.mp h
    rw [hls]
    rfl
  · decide

/-- Witness for C10: a well-aligned built module renders successfully. -/
theorem c10_witness :
    (generate_pyi (processModule [TopStmt.classDef
        ⟨"W", [], [], [BodyItem.functionDef "g" []
          [⟨"self", none⟩, ⟨"x", some (Ann.name "int")⟩]
          [Ann.const (PyVal.vInt 3)] (some (Ann.name "int")) []]⟩])).isSome = true := by
  apply render_total_iff_defaults_aligned.1
  intro c hc
  simp only [processModule, List.foldl_cons, List.foldl_nil, processStmt, visit_ClassDef,
    initState] at hc
  simp only [List.nil_append, List.mem_singleton] at hc
  subst hc
  exact ⟨by decide, by decide⟩

end PyiGen


